import Mathlib

/-!
Shallow embedding of the vibe_trader repository (models.py, trading_strategies.py,
main.py) and proofs of specification claims about it.

Modelling conventions:
* Python floats are modelled by `ℚ` (the claims are about the exact formulas,
  not about rounding).
* Python strings that carry signals stay `String` ("BUY" / "SELL" / "HOLD"),
  exactly as in the source, which compares raw strings.
* A Python exception is modelled by `Except String` where a claim depends on
  the exception (MomentumStrategy's unguarded division, strategy faults seen
  by the orchestrator); the exception message records the Python error class.
* `datetime` timestamps are opaque to every claim, so `date` is a bare `Nat`.
-/

/-- models.py `PriceData`: one timestamped price sample.  `date` is opaque
(only `price` is ever read by the strategies and the orchestrator's logic). -/
structure PriceData where
  date : Nat
  price : ℚ
  symbol : Option String := none
deriving Repr, DecidableEq

/-- Python slice `l[-n:]` for `n ≥ 1`: the last `min n l.length` elements.
(The sources only ever slice with a positive `n`; `l[-0:]` would be the whole
list in Python, but no guarded call site can reach `n = 0`.) -/
def takeLast (n : Nat) (l : List α) : List α :=
  l.drop (l.length - n)

/-- trading_strategies.py `SimpleMovingAverageStrategy.__init__` parameters. -/
structure SimpleMovingAverageStrategy where
  short_window : Nat := 5
  long_window : Nat := 20

/-- trading_strategies.py lines 28-51, `SimpleMovingAverageStrategy.analyze`.
`history[-long_window:]` is `takeLast long_window`;
`history[-long_window-1:-1]` is `takeLast (long_window+1)` minus its last
element (well defined because the branch requires `len ≥ long_window + 1`).
Division is `ℚ` division; the strategies are constructed with positive
windows (a zero window would raise ZeroDivisionError in Python and is outside
every claim). -/
def SimpleMovingAverageStrategy.analyze (s : SimpleMovingAverageStrategy)
    (_data : PriceData) (history : List PriceData) : String :=
  if history.length < s.long_window then "HOLD"
  else
    let recent_prices := (takeLast s.long_window history).map (·.price)
    let short_ma := (takeLast s.short_window recent_prices).sum / s.short_window
    let long_ma := recent_prices.sum / s.long_window
    if history.length ≥ s.long_window + 1 then
      let prev_prices := ((takeLast (s.long_window + 1) history).dropLast).map (·.price)
      let prev_short_ma := (takeLast s.short_window prev_prices).sum / s.short_window
      if short_ma > long_ma ∧ prev_short_ma ≤ prev_prices.sum / s.long_window then "BUY"
      else if short_ma < long_ma ∧ prev_short_ma ≥ prev_prices.sum / s.long_window then "SELL"
      else "HOLD"
    else "HOLD"

/-- trading_strategies.py `RSIStrategy.__init__` parameters. -/
structure RSIStrategy where
  period : Nat := 14
  oversold : ℚ := 30
  overbought : ℚ := 70

/-- trading_strategies.py lines 62-92, `RSIStrategy.analyze`.
`price_changes = [prices[i] - prices[i-1] for i in range(1, len(prices))]`
is `zipWith (· - ·) prices.tail prices` (element `i` is
`prices[i+1] - prices[i]`).  The `if gains else 0` / `if losses else 0`
guards are the emptiness checks of the Python source. -/
def RSIStrategy.analyze (s : RSIStrategy)
    (_data : PriceData) (history : List PriceData) : String :=
  if history.length < s.period + 1 then "HOLD"
  else
    let prices := (takeLast (s.period + 1) history).map (·.price)
    let price_changes := List.zipWith (· - ·) prices.tail prices
    let gains := price_changes.map (fun change => if change > 0 then change else 0)
    let losses := price_changes.map (fun change => if change < 0 then -change else 0)
    let avg_gain := if gains.isEmpty then 0 else gains.sum / gains.length
    let avg_loss := if losses.isEmpty then 0 else losses.sum / losses.length
    let rsi : ℚ :=
      if avg_loss = 0 then 100
      else 100 - (100 / (1 + avg_gain / avg_loss))
    if rsi < s.oversold then "BUY"
    else if rsi > s.overbought then "SELL"
    else "HOLD"

/-- trading_strategies.py `MomentumStrategy.__init__` parameters. -/
structure MomentumStrategy where
  lookback_period : Nat := 10
  threshold : ℚ := 2/100

/-- trading_strategies.py lines 102-118, `MomentumStrategy.analyze`.
`history[-lookback_period]` is index `length - lookback_period` (the
strategies are constructed with `lookback_period ≥ 1`; the guard makes the
index in range).  The division `/ past_price` has no zero guard in the
source: a zero `past_price` raises ZeroDivisionError, modelled as
`Except.error`. -/
def MomentumStrategy.analyze (s : MomentumStrategy)
    (data : PriceData) (history : List PriceData) : Except String String :=
  if history.length < s.lookback_period then .ok "HOLD"
  else
    let current_price := data.price
    match history.get? (history.length - s.lookback_period) with
    | none => .error "IndexError"
    | some past =>
      let past_price := past.price
      if past_price = 0 then .error "ZeroDivisionError"
      else
        let momentum := (current_price - past_price) / past_price
        .ok (if momentum > s.threshold then "BUY"
             else if momentum < -s.threshold then "SELL"
             else "HOLD")

/-! ## Orchestrator (main.py `TradingAssistant`) -/

/-- main.py line 26: `collections.deque(maxlen=max_history)`.  Only the
bounded-append behaviour is relevant: appending keeps the last `maxlen`
elements, evicting from the front. -/
structure BoundedDeque (α : Type) where
  maxlen : Nat
  items : List α

/-- `deque.append(x)` with a `maxlen`: push `x` at the back and, when over
capacity, drop the oldest elements from the front. -/
def BoundedDeque.append (d : BoundedDeque α) (x : α) : BoundedDeque α :=
  { d with items := takeLast d.maxlen (d.items ++ [x]) }

/-- main.py lines 28-36: the `stats` dictionary of `TradingAssistant`.
`start_time` stores an opaque instant (`datetime.now()`). -/
structure Stats where
  total_signals : Nat
  buy_signals : Nat
  sell_signals : Nat
  hold_signals : Nat
  last_signal : Option String
  last_price : Option ℚ
  start_time : Option Nat

/-- A registered strategy as the orchestrator sees it: its `analyze`
method.  `Except.error` models `analyze` raising an exception; `Except.ok`
carries the returned signal string. -/
def TradingStrategy : Type := PriceData → List PriceData → Except String String

/-- main.py lines 74-85: the per-signal stats update inside
`_analyze_with_strategies`.  Python's `if signal and signal != 'HOLD'`
tests that the string is non-empty (truthy) and not `'HOLD'`. -/
def updateStats (st : Stats) (signal : String) : Stats :=
  if signal ≠ "" ∧ signal ≠ "HOLD" then
    let st := { st with total_signals := st.total_signals + 1, last_signal := some signal }
    if signal = "BUY" then { st with buy_signals := st.buy_signals + 1 }
    else if signal = "SELL" then { st with sell_signals := st.sell_signals + 1 }
    else { st with hold_signals := st.hold_signals + 1 }
  else st

/-- main.py lines 70-89: the strategy loop of `_analyze_with_strategies`.
Every strategy is invoked with the same `(data, history_list)` pair; an
exception from one strategy is caught (`except` at line 88) and the loop
continues with the next strategy, leaving the stats untouched for the
faulty one.  The returned list records each strategy's outcome in
registration order (`_execute_signal` only logs, so it has no state
effect). -/
def runStrategies (strats : List TradingStrategy) (data : PriceData)
    (history_list : List PriceData) (st : Stats) :
    List (Except String String) × Stats :=
  match strats with
  | [] => ([], st)
  | strat :: rest =>
    let r := strat data history_list
    let st' := match r with
      | .ok signal => updateStats st signal
      | .error _ => st
    (r :: (runStrategies rest data history_list st').1,
     (runStrategies rest data history_list st').2)

/-- main.py lines 23-36: `TradingAssistant.__init__` state.  The data
listener is modelled only by whether one is attached (its internals drive
I/O, which no claim touches). -/
structure TradingAssistant where
  data_listener : Option Unit
  strategies : List TradingStrategy
  price_history : BoundedDeque PriceData
  running : Bool
  stats : Stats

/-- main.py lines 23-36: `TradingAssistant(max_history=N)`. -/
def TradingAssistant.init (max_history : Nat) : TradingAssistant :=
  { data_listener := none
    strategies := []
    price_history := { maxlen := max_history, items := [] }
    running := false
    stats := { total_signals := 0, buy_signals := 0, sell_signals := 0,
               hold_signals := 0, last_signal := none, last_price := none,
               start_time := none } }

/-- main.py lines 38-41: `add_strategy` appends to the list. -/
def TradingAssistant.add_strategy (a : TradingAssistant) (s : TradingStrategy) :
    TradingAssistant :=
  { a with strategies := a.strategies ++ [s] }

/-- main.py lines 66-89: `_analyze_with_strategies` snapshots
`list(self.price_history)` and runs every strategy over it. -/
def TradingAssistant.analyze_with_strategies (a : TradingAssistant)
    (data : PriceData) : TradingAssistant :=
  let history_list := a.price_history.items
  { a with stats := (runStrategies a.strategies data history_list a.stats).2 }

/-- main.py lines 48-64: `on_data_received`: append to history, update
`last_price`, then run the strategies if any are registered.  The history
snapshot handed to the strategies already contains `data` as its most
recent element. -/
def TradingAssistant.on_data_received (a : TradingAssistant)
    (data : PriceData) : TradingAssistant :=
  let a1 := { a with price_history := a.price_history.append data }
  let a2 := { a1 with stats := { a1.stats with last_price := some data.price } }
  if a2.strategies.isEmpty then a2
  else a2.analyze_with_strategies data

/-- main.py lines 120-132: `start()` raises
`ValueError("No data listener configured")` before any state mutation when
no listener is attached; otherwise it marks the assistant running and
records the start time (`now`), then hands control to the listener loop
(I/O, not modelled).  The returned pair is (raised exception, resulting
state). -/
def TradingAssistant.start (a : TradingAssistant) (now : Nat) :
    Option String × TradingAssistant :=
  match a.data_listener with
  | none => (some "No data listener configured", a)
  | some _ =>
      (none, { a with running := true,
                      stats := { a.stats with start_time := some now } })

/-! ## Formula definitions used by the claims (spec §4.2 wording) -/

/-- `shortMA`: mean of the last `short_window` of the last `long_window`
prices (the source's `short_ma`, line 37). -/
def short_ma (s : SimpleMovingAverageStrategy) (history : List PriceData) : ℚ :=
  (takeLast s.short_window ((takeLast s.long_window history).map (·.price))).sum
    / s.short_window

/-- `longMA`: mean of the last `long_window` prices (the source's
`long_ma`, line 38). -/
def long_ma (s : SimpleMovingAverageStrategy) (history : List PriceData) : ℚ :=
  ((takeLast s.long_window history).map (·.price)).sum / s.long_window

/-- `prevShortMA`: the short mean over the one-tick-earlier window
`history[-long_window-1:-1]` (the source's `prev_short_ma`, line 43). -/
def prev_short_ma (s : SimpleMovingAverageStrategy) (history : List PriceData) : ℚ :=
  (takeLast s.short_window
      (((takeLast (s.long_window + 1) history).dropLast).map (·.price))).sum
    / s.short_window

/-- The "previous long MA" reference the source computes inline as
`sum(prev_prices) / long_window` (lines 46 and 48): the mean of the full
previous window. -/
def prev_long_ref (s : SimpleMovingAverageStrategy) (history : List PriceData) : ℚ :=
  (((takeLast (s.long_window + 1) history).dropLast).map (·.price)).sum / s.long_window

/-- Average gain of the `period` consecutive deltas over the last
`period + 1` prices, simple mean over `period` samples (spec §4.2 RSI). -/
def rsi_avg_gain (s : RSIStrategy) (history : List PriceData) : ℚ :=
  (((List.zipWith (· - ·)
        (((takeLast (s.period + 1) history).map (·.price)).tail)
        ((takeLast (s.period + 1) history).map (·.price))).map
      (fun change => if change > 0 then change else 0)).sum) / s.period

/-- Average loss (negated negative deltas), simple mean over `period`
samples (spec §4.2 RSI). -/
def rsi_avg_loss (s : RSIStrategy) (history : List PriceData) : ℚ :=
  (((List.zipWith (· - ·)
        (((takeLast (s.period + 1) history).map (·.price)).tail)
        ((takeLast (s.period + 1) history).map (·.price))).map
      (fun change => if change < 0 then -change else 0)).sum) / s.period

/-- RSI value: 100 when the average loss is 0, else
`100 - 100 / (1 + avgGain / avgLoss)` (spec §4.2 RSI). -/
def rsi_value (s : RSIStrategy) (history : List PriceData) : ℚ :=
  if rsi_avg_loss s history = 0 then 100
  else 100 - (100 / (1 + rsi_avg_gain s history / rsi_avg_loss s history))

/-- The spec §8 end-to-end price sequence `[10,10,10,10,20,20]` as
observations in arrival order. -/
def demoTicks : List PriceData :=
  [⟨1, 10, none⟩, ⟨2, 10, none⟩, ⟨3, 10, none⟩,
   ⟨4, 10, none⟩, ⟨5, 20, none⟩, ⟨6, 20, none⟩]

/-- 15 strictly increasing prices (for the RSI claim's concrete case). -/
def demoRising : List PriceData :=
  [⟨1, 1, none⟩, ⟨2, 2, none⟩, ⟨3, 3, none⟩, ⟨4, 4, none⟩, ⟨5, 5, none⟩,
   ⟨6, 6, none⟩, ⟨7, 7, none⟩, ⟨8, 8, none⟩, ⟨9, 9, none⟩, ⟨10, 10, none⟩,
   ⟨11, 11, none⟩, ⟨12, 12, none⟩, ⟨13, 13, none⟩, ⟨14, 14, none⟩,
   ⟨15, 15, none⟩]

/-- A strategy whose `analyze` always raises (for concrete fault cases). -/
def demoFaulty : TradingStrategy := fun _ _ => .error "boom"

/-- A strategy whose `analyze` always returns BUY. -/
def demoConstBuy : TradingStrategy := fun _ _ => .ok "BUY"

/-- A strategy whose `analyze` always returns HOLD. -/
def demoConstHold : TradingStrategy := fun _ _ => .ok "HOLD"

/-! ## Helper lemmas -/

/-- Length of a Python tail slice. -/
lemma takeLast_length (n : Nat) (l : List α) :
    (takeLast n l).length = min n l.length := by
  simp [takeLast]
  omega

/-- `l[-n:]` is all of `l` when `n` covers the whole list. -/
lemma takeLast_all {n : Nat} {l : List α} (h : l.length ≤ n) :
    takeLast n l = l := by
  unfold takeLast
  have : l.length - n = 0 := by omega
  simp [this]

/-- The guarded Python mean `sum(l)/len(l) if l else 0` equals `sum(l)/n`
whenever `l` has length `n` (in `ℚ`, where division by zero is zero). -/
lemma guarded_mean_eq (l : List ℚ) (n : Nat) (h : l.length = n) :
    (if l.isEmpty then 0 else l.sum / l.length) = l.sum / n := by
  subst h
  cases l with
  | nil => simp
  | cons a t => simp [List.isEmpty]

/-- Consecutive differences of a strictly increasing rational list are
positive. -/
lemma zip_sub_pos (l : List ℚ) :
    List.Chain' (· < ·) l → ∀ x ∈ List.zipWith (· - ·) l.tail l, 0 < x := by
  induction l with
  | nil => simp
  | cons a t ih =>
    cases t with
    | nil => simp
    | cons b t2 =>
      intro hc x hx
      simp only [List.tail_cons, List.zipWith_cons_cons] at hx
      rcases List.mem_cons.mp hx with rfl | hx2
      · exact sub_pos.mpr (List.chain'_cons.mp hc).1
      · exact ih (List.chain'_cons.mp hc).2 x (by simpa using hx2)

/-- With at least `long_window + 1` observations,
`SimpleMovingAverageStrategy.analyze` is exactly the crossover decision
chain over the four moving-average quantities. -/
lemma sma_analyze_eq (s : SimpleMovingAverageStrategy) (data : PriceData)
    (history : List PriceData) (h : s.long_window + 1 ≤ history.length) :
    s.analyze data history =
      if short_ma s history > long_ma s history ∧
          prev_short_ma s history ≤ prev_long_ref s history then "BUY"
      else if short_ma s history < long_ma s history ∧
          prev_short_ma s history ≥ prev_long_ref s history then "SELL"
      else "HOLD" := by
  have h1 : ¬ (history.length < s.long_window) := by omega
  have h2 : history.length ≥ s.long_window + 1 := h
  simp only [SimpleMovingAverageStrategy.analyze, short_ma, long_ma,
    prev_short_ma, prev_long_ref, if_neg h1, if_pos h2]

/-- With at least `period + 1` observations, `RSIStrategy.analyze` is
exactly the threshold chain on `rsi_value` (where the averages divide by
`period`, which is the number of delta samples). -/
lemma rsi_analyze_eq (s : RSIStrategy) (data : PriceData)
    (history : List PriceData) (h : s.period + 1 ≤ history.length) :
    s.analyze data history =
      if rsi_value s history < s.oversold then "BUY"
      else if rsi_value s history > s.overbought then "SELL"
      else "HOLD" := by
  have h1 : ¬ (history.length < s.period + 1) := by omega
  simp only [RSIStrategy.analyze, rsi_value, rsi_avg_gain, rsi_avg_loss, if_neg h1]
  have hps : ((takeLast (s.period + 1) history).map (fun d => d.price)).length
      = s.period + 1 := by
    rw [List.length_map, takeLast_length]
    omega
  have hzl : (List.zipWith (· - ·)
      (((takeLast (s.period + 1) history).map (fun d => d.price)).tail)
      ((takeLast (s.period + 1) history).map (fun d => d.price))).length = s.period := by
    rw [List.length_zipWith, List.length_tail, hps]
    omega
  rw [guarded_mean_eq _ s.period (by rw [List.length_map, hzl]),
      guarded_mean_eq _ s.period (by rw [List.length_map, hzl])]

/-- When the index `history[-lookback_period]` is in range and holds a
nonzero price, `MomentumStrategy.analyze` returns exactly the
threshold-chain decision on the momentum ratio. -/
lemma momentum_analyze_spec (s : MomentumStrategy) (data : PriceData)
    (history : List PriceData) (past : PriceData)
    (hlen : s.lookback_period ≤ history.length)
    (hget : history.get? (history.length - s.lookback_period) = some past)
    (hz : past.price ≠ 0) :
    s.analyze data history =
      .ok (if (data.price - past.price) / past.price > s.threshold then "BUY"
           else if (data.price - past.price) / past.price < -s.threshold then "SELL"
           else "HOLD") := by
  unfold MomentumStrategy.analyze
  rw [if_neg (Nat.not_lt.mpr hlen), hget]
  simp [hz]

/-- Re-truncating after a bounded truncation is the same as truncating the
whole sequence. -/
lemma takeLast_takeLast_append (n : Nat) (l r : List α) :
    takeLast n (takeLast n l ++ r) = takeLast n (l ++ r) := by
  rcases le_or_lt l.length n with h | h
  · rw [takeLast_all h]
  · unfold takeLast
    rw [← List.drop_append_of_le_length (show l.length - n ≤ l.length by omega),
        List.drop_drop]
    congr 1
    simp only [List.length_drop, List.length_append]
    omega

/-- Folding bounded appends over a fresh-enough deque keeps exactly the
last `N` elements of everything appended. -/
lemma foldl_append_items (N : Nat) (xs : List α) :
    ∀ (l : List α), l.length ≤ N →
      ((xs.foldl BoundedDeque.append ⟨N, l⟩).items = takeLast N (l ++ xs)) := by
  induction xs with
  | nil =>
    intro l h
    simp [takeLast_all h]
  | cons x t ih =>
    intro l h
    rw [List.foldl_cons,
        show BoundedDeque.append ⟨N, l⟩ x = ⟨N, takeLast N (l ++ [x])⟩ from rfl,
        ih (takeLast N (l ++ [x])) (by rw [takeLast_length]; omega),
        takeLast_takeLast_append, List.append_assoc, List.singleton_append]

/-- `on_data_received` changes the history only by appending the new
observation. -/
lemma on_data_received_price_history (a : TradingAssistant) (data : PriceData) :
    (a.on_data_received data).price_history = a.price_history.append data := by
  simp only [TradingAssistant.on_data_received, TradingAssistant.analyze_with_strategies]
  split <;> rfl

/-- Over a whole observation sequence, the history evolves exactly as the
bounded deque of appends. -/
lemma foldl_on_data_received_history (xs : List PriceData) :
    ∀ (a : TradingAssistant),
      (xs.foldl TradingAssistant.on_data_received a).price_history =
        xs.foldl BoundedDeque.append a.price_history := by
  induction xs with
  | nil => intro a; rfl
  | cons x t ih =>
    intro a
    rw [List.foldl_cons, List.foldl_cons, ih, on_data_received_price_history]

/-- A HOLD signal leaves the stats untouched. -/
lemma updateStats_hold (st : Stats) : updateStats st "HOLD" = st := by
  simp [updateStats]

/-- If every strategy returns HOLD on this tick, the strategy loop leaves
the stats unchanged. -/
lemma runStrategies_stats_hold (strats : List TradingStrategy) (data : PriceData)
    (hist : List PriceData) :
    ∀ st : Stats, (∀ f ∈ strats, f data hist = .ok "HOLD") →
      (runStrategies strats data hist st).2 = st := by
  induction strats with
  | nil => intro st _; rfl
  | cons s t ih =>
    intro st h
    have hs : s data hist = .ok "HOLD" := h s (List.mem_cons_self s t)
    simp only [runStrategies, hs, updateStats_hold]
    exact ih st (fun f hf => h f (List.mem_cons_of_mem s hf))

/-- The trace of per-strategy outcomes produced by the loop is exactly each
strategy applied independently to the same `(data, history)` pair. -/
lemma runStrategies_fst (data : PriceData) (hist : List PriceData) :
    ∀ (strats : List TradingStrategy) (st : Stats),
      (runStrategies strats data hist st).1 = strats.map (fun g => g data hist) := by
  intro strats
  induction strats with
  | nil => intro st; rfl
  | cons s t ih =>
    intro st
    simp [runStrategies, ih]

/-- `updateStats` preserves "no HOLD count, total = buy + sell" for the
three legitimate signal strings. -/
lemma updateStats_inv (st : Stats) (sig : String)
    (hsig : sig = "BUY" ∨ sig = "SELL" ∨ sig = "HOLD")
    (h0 : st.hold_signals = 0)
    (h1 : st.total_signals = st.buy_signals + st.sell_signals) :
    (updateStats st sig).hold_signals = 0 ∧
    (updateStats st sig).total_signals =
      (updateStats st sig).buy_signals + (updateStats st sig).sell_signals := by
  rcases hsig with rfl | rfl | rfl <;> simp [updateStats, h0, h1] <;> omega

/-- The strategy loop preserves the counter invariant when every strategy
can only return BUY, SELL or HOLD. -/
lemma runStrategies_inv (data : PriceData) (hist : List PriceData) :
    ∀ (strats : List TradingStrategy) (st : Stats),
      (∀ f ∈ strats, ∀ r, f data hist = .ok r →
        r = "BUY" ∨ r = "SELL" ∨ r = "HOLD") →
      st.hold_signals = 0 → st.total_signals = st.buy_signals + st.sell_signals →
      ((runStrategies strats data hist st).2.hold_signals = 0 ∧
       (runStrategies strats data hist st).2.total_signals =
         (runStrategies strats data hist st).2.buy_signals +
           (runStrategies strats data hist st).2.sell_signals) := by
  intro strats
  induction strats with
  | nil => intro st _ h0 h1; exact ⟨h0, h1⟩
  | cons s t ih =>
    intro st h h0 h1
    simp only [runStrategies]
    cases hr : s data hist with
    | ok sig =>
      obtain ⟨k0, k1⟩ :=
        updateStats_inv st sig (h s (List.mem_cons_self s t) sig hr) h0 h1
      exact ih (updateStats st sig) (fun f hf => h f (List.mem_cons_of_mem s hf)) k0 k1
    | error e =>
      exact ih st (fun f hf => h f (List.mem_cons_of_mem s hf)) h0 h1

/-- `on_data_received` never changes the registered strategies. -/
lemma on_data_received_strategies (a : TradingAssistant) (data : PriceData) :
    (a.on_data_received data).strategies = a.strategies := by
  simp only [TradingAssistant.on_data_received, TradingAssistant.analyze_with_strategies]
  split <;> rfl

/-- One observation preserves the counter invariant. -/
lemma on_data_received_stats_inv (a : TradingAssistant) (data : PriceData)
    (h : ∀ f ∈ a.strategies, ∀ d hl r, f d hl = .ok r →
      r = "BUY" ∨ r = "SELL" ∨ r = "HOLD")
    (h0 : a.stats.hold_signals = 0)
    (h1 : a.stats.total_signals = a.stats.buy_signals + a.stats.sell_signals) :
    (a.on_data_received data).stats.hold_signals = 0 ∧
    (a.on_data_received data).stats.total_signals =
      (a.on_data_received data).stats.buy_signals +
        (a.on_data_received data).stats.sell_signals := by
  simp only [TradingAssistant.on_data_received, TradingAssistant.analyze_with_strategies]
  split
  · exact ⟨h0, h1⟩
  · exact runStrategies_inv data _ a.strategies _
      (fun f hf r hr => h f hf _ _ r hr) h0 h1

/-- Folding a whole observation sequence preserves the counter invariant. -/
lemma foldl_on_data_received_inv (xs : List PriceData) :
    ∀ (a : TradingAssistant),
      (∀ f ∈ a.strategies, ∀ d hl r, f d hl = .ok r →
        r = "BUY" ∨ r = "SELL" ∨ r = "HOLD") →
      a.stats.hold_signals = 0 →
      a.stats.total_signals = a.stats.buy_signals + a.stats.sell_signals →
      ((xs.foldl TradingAssistant.on_data_received a).stats.hold_signals = 0 ∧
       (xs.foldl TradingAssistant.on_data_received a).stats.total_signals =
         (xs.foldl TradingAssistant.on_data_received a).stats.buy_signals +
           (xs.foldl TradingAssistant.on_data_received a).stats.sell_signals) := by
  induction xs with
  | nil => intro a _ h0 h1; exact ⟨h0, h1⟩
  | cons x t ih =>
    intro a h h0 h1
    rw [List.foldl_cons]
    obtain ⟨k0, k1⟩ := on_data_received_stats_inv a x h h0 h1
    exact ih (a.on_data_received x)
      (by rw [on_data_received_strategies]; exact h) k0 k1

/-- Registering strategies one by one appends them in order and leaves the
stats alone. -/
lemma foldl_add_strategy (strats : List TradingStrategy) :
    ∀ (a : TradingAssistant),
      (strats.foldl TradingAssistant.add_strategy a).strategies =
        a.strategies ++ strats ∧
      (strats.foldl TradingAssistant.add_strategy a).stats = a.stats := by
  induction strats with
  | nil => intro a; simp
  | cons s t ih =>
    intro a
    rw [List.foldl_cons]
    obtain ⟨e1, e2⟩ := ih (a.add_strategy s)
    refine ⟨?_, e2⟩
    rw [e1]
    simp [TradingAssistant.add_strategy]

/-! ## Claims -/

/-- C4: for every observation and every history shorter than the required
window (`long_window` for SMA, `period + 1` for RSI, `lookback_period` for
momentum), `analyze` returns HOLD, for all three strategy variants. -/
theorem warmup_returns_hold :
    (∀ (s : SimpleMovingAverageStrategy) (data : PriceData) (history : List PriceData),
      history.length < s.long_window → s.analyze data history = "HOLD") ∧
    (∀ (s : RSIStrategy) (data : PriceData) (history : List PriceData),
      history.length < s.period + 1 → s.analyze data history = "HOLD") ∧
    (∀ (s : MomentumStrategy) (data : PriceData) (history : List PriceData),
      history.length < s.lookback_period → s.analyze data history = .ok "HOLD") := by
  refine ⟨fun s data history h => ?_, fun s data history h => ?_,
    fun s data history h => ?_⟩
  · simp [SimpleMovingAverageStrategy.analyze, h]
  · simp [RSIStrategy.analyze, h]
  · simp [MomentumStrategy.analyze, h]

/-- Witness for C4 at concrete warm-up inputs (empty histories). -/
theorem warmup_returns_hold_witness :
    SimpleMovingAverageStrategy.analyze ⟨5, 20⟩ ⟨0, 1, none⟩ [] = "HOLD" ∧
    RSIStrategy.analyze ⟨14, 30, 70⟩ ⟨0, 1, none⟩ [] = "HOLD" ∧
    MomentumStrategy.analyze ⟨10, 2/100⟩ ⟨0, 1, none⟩ [] = .ok "HOLD" :=
  ⟨warmup_returns_hold.1 _ _ _ (by decide),
   warmup_returns_hold.2.1 _ _ _ (by decide),
   warmup_returns_hold.2.2 _ _ _ (by decide)⟩

/-- C9: `start()` on an assistant with no data listener attached reports
the hard error `ValueError("No data listener configured")` to the caller
and leaves the assistant's state (stats, history, everything) unchanged. -/
theorem start_without_listener_errors :
    ∀ (a : TradingAssistant) (now : Nat), a.data_listener = none →
      (a.start now).1 = some "No data listener configured" ∧
      (a.start now).2 = a := by
  intro a now h
  simp [TradingAssistant.start, h]

/-- Witness for C9: a freshly constructed assistant has no listener and
`start` fails without touching it. -/
theorem start_without_listener_errors_witness :
    ((TradingAssistant.init 1000).start 0).1 = some "No data listener configured" ∧
    ((TradingAssistant.init 1000).start 0).2 = TradingAssistant.init 1000 :=
  start_without_listener_errors (TradingAssistant.init 1000) 0 rfl

/-- C3: with the lookback index in range and a nonzero past price,
`MomentumStrategy.analyze` returns BUY when
`momentum = (current - past)/past > threshold`, SELL when
`momentum < -threshold`, else HOLD; concretely, past price 100 and
threshold 0.02 give BUY at current price 103 and HOLD at 99. -/
theorem momentum_signal_rule :
    (∀ (s : MomentumStrategy) (data : PriceData) (history : List PriceData)
        (past : PriceData),
      s.lookback_period ≤ history.length →
      history.get? (history.length - s.lookback_period) = some past →
      past.price ≠ 0 →
      s.analyze data history =
        .ok (if (data.price - past.price) / past.price > s.threshold then "BUY"
             else if (data.price - past.price) / past.price < -s.threshold then "SELL"
             else "HOLD")) ∧
    MomentumStrategy.analyze ⟨2, 2/100⟩ ⟨2, 103, none⟩
      [⟨1, 100, none⟩, ⟨2, 103, none⟩] = .ok "BUY" ∧
    MomentumStrategy.analyze ⟨2, 2/100⟩ ⟨2, 99, none⟩
      [⟨1, 100, none⟩, ⟨2, 99, none⟩] = .ok "HOLD" := by
  refine ⟨momentum_analyze_spec, ?_, ?_⟩
  · rw [momentum_analyze_spec ⟨2, 2/100⟩ ⟨2, 103, none⟩
      [⟨1, 100, none⟩, ⟨2, 103, none⟩] ⟨1, 100, none⟩ (by decide) rfl (by norm_num)]
    norm_num
  · rw [momentum_analyze_spec ⟨2, 2/100⟩ ⟨2, 99, none⟩
      [⟨1, 100, none⟩, ⟨2, 99, none⟩] ⟨1, 100, none⟩ (by decide) rfl (by norm_num)]
    norm_num

/-- Witness for C3: the general rule applied at the concrete BUY input. -/
theorem momentum_signal_rule_witness :
    MomentumStrategy.analyze ⟨2, 2/100⟩ ⟨2, 103, none⟩
      [⟨1, 100, none⟩, ⟨2, 103, none⟩] =
      .ok (if ((103 : ℚ) - 100) / 100 > 2/100 then "BUY"
           else if ((103 : ℚ) - 100) / 100 < -(2/100) then "SELL"
           else "HOLD") :=
  momentum_signal_rule.1 ⟨2, 2/100⟩ ⟨2, 103, none⟩
    [⟨1, 100, none⟩, ⟨2, 103, none⟩] ⟨1, 100, none⟩ (by decide) rfl (by norm_num)

/-- C10: `MomentumStrategy.analyze` divides by `history[-lookback].price`
with no zero guard: with that price nonzero (and the index in range)
evaluation is total and reaches no error, but a zero past price makes the
division fault (ZeroDivisionError). -/
theorem momentum_division_unguarded :
    (∀ (s : MomentumStrategy) (data : PriceData) (history : List PriceData)
        (past : PriceData),
      s.lookback_period ≤ history.length →
      history.get? (history.length - s.lookback_period) = some past →
      past.price ≠ 0 →
      ∃ signal, s.analyze data history = .ok signal) ∧
    MomentumStrategy.analyze ⟨2, 2/100⟩ ⟨2, 50, none⟩
      [⟨1, 0, none⟩, ⟨2, 50, none⟩] = .error "ZeroDivisionError" := by
  refine ⟨fun s data history past hlen hget hz =>
    ⟨_, momentum_analyze_spec s data history past hlen hget hz⟩, ?_⟩
  unfold MomentumStrategy.analyze
  norm_num

/-- Witness for C10: totality at a concrete nonzero-past input. -/
theorem momentum_division_unguarded_witness :
    ∃ signal, MomentumStrategy.analyze ⟨2, 2/100⟩ ⟨2, 99, none⟩
      [⟨1, 100, none⟩, ⟨2, 99, none⟩] = .ok signal :=
  momentum_division_unguarded.1 ⟨2, 2/100⟩ ⟨2, 99, none⟩
    [⟨1, 100, none⟩, ⟨2, 99, none⟩] ⟨1, 100, none⟩ (by decide) rfl (by norm_num)

/-- C1: with `len(history) ≥ long_window + 1`,
`SimpleMovingAverageStrategy.analyze` returns BUY iff
`shortMA > longMA` and `prevShortMA ≤ mean(history[-long_window-1:-1])`,
SELL iff `shortMA < longMA` and `prevShortMA ≥` that same previous-window
mean, and HOLD otherwise; with `len(history) == long_window` exactly it
returns HOLD; and on the price sequence `[10,10,10,10,20,20]` with
`short_window=2, long_window=4` the per-tick signals are exactly the
formula values `HOLD, HOLD, HOLD, HOLD, BUY, HOLD`. -/
theorem sma_crossover_rule :
    (∀ (s : SimpleMovingAverageStrategy) (data : PriceData) (history : List PriceData),
      s.long_window + 1 ≤ history.length →
      ((s.analyze data history = "BUY" ↔
          short_ma s history > long_ma s history ∧
          prev_short_ma s history ≤ prev_long_ref s history) ∧
       (s.analyze data history = "SELL" ↔
          short_ma s history < long_ma s history ∧
          prev_short_ma s history ≥ prev_long_ref s history) ∧
       (s.analyze data history = "HOLD" ↔
          ¬(short_ma s history > long_ma s history ∧
            prev_short_ma s history ≤ prev_long_ref s history) ∧
          ¬(short_ma s history < long_ma s history ∧
            prev_short_ma s history ≥ prev_long_ref s history)))) ∧
    (∀ (s : SimpleMovingAverageStrategy) (data : PriceData) (history : List PriceData),
      history.length = s.long_window → s.analyze data history = "HOLD") ∧
    (SimpleMovingAverageStrategy.analyze ⟨2, 4⟩ ⟨1, 10, none⟩ (demoTicks.take 1) = "HOLD" ∧
     SimpleMovingAverageStrategy.analyze ⟨2, 4⟩ ⟨2, 10, none⟩ (demoTicks.take 2) = "HOLD" ∧
     SimpleMovingAverageStrategy.analyze ⟨2, 4⟩ ⟨3, 10, none⟩ (demoTicks.take 3) = "HOLD" ∧
     SimpleMovingAverageStrategy.analyze ⟨2, 4⟩ ⟨4, 10, none⟩ (demoTicks.take 4) = "HOLD" ∧
     SimpleMovingAverageStrategy.analyze ⟨2, 4⟩ ⟨5, 20, none⟩ (demoTicks.take 5) = "BUY" ∧
     SimpleMovingAverageStrategy.analyze ⟨2, 4⟩ ⟨6, 20, none⟩ (demoTicks.take 6) = "HOLD") := by
  refine ⟨fun s data history h => ?_, fun s data history h => ?_, ?_⟩
  · rw [sma_analyze_eq s data history h]
    split_ifs with hA hB
    · exact ⟨by simp [hA],
        ⟨fun hE => absurd hE (by decide), fun hB' => absurd hB'.1 (lt_asymm hA.1)⟩,
        ⟨fun hE => absurd hE (by decide), fun hnab => absurd hA hnab.1⟩⟩
    · exact ⟨⟨fun hE => absurd hE (by decide), fun hA' => absurd hA' hA⟩,
        by simp [hB],
        ⟨fun hE => absurd hE (by decide), fun hnab => absurd hB hnab.2⟩⟩
    · exact ⟨⟨fun hE => absurd hE (by decide), fun hA' => absurd hA' hA⟩,
        ⟨fun hE => absurd hE (by decide), fun hB' => absurd hB' hB⟩,
        by simp [hA, hB]⟩
  · have h1 : ¬ (history.length < s.long_window) := by omega
    have h2 : ¬ (history.length ≥ s.long_window + 1) := by omega
    simp only [SimpleMovingAverageStrategy.analyze, if_neg h1, if_neg h2]
  · refine ⟨?_, ?_, ?_, ?_, ?_, ?_⟩ <;>
      norm_num [SimpleMovingAverageStrategy.analyze, takeLast, demoTicks]

/-- Witness for C1: the crossover characterization applied at tick 5 of
the demo sequence. -/
theorem sma_crossover_rule_witness :
    (SimpleMovingAverageStrategy.analyze ⟨2, 4⟩ ⟨5, 20, none⟩ (demoTicks.take 5) = "BUY" ↔
       short_ma ⟨2, 4⟩ (demoTicks.take 5) > long_ma ⟨2, 4⟩ (demoTicks.take 5) ∧
       prev_short_ma ⟨2, 4⟩ (demoTicks.take 5) ≤ prev_long_ref ⟨2, 4⟩ (demoTicks.take 5)) ∧
    (SimpleMovingAverageStrategy.analyze ⟨2, 4⟩ ⟨5, 20, none⟩ (demoTicks.take 5) = "SELL" ↔
       short_ma ⟨2, 4⟩ (demoTicks.take 5) < long_ma ⟨2, 4⟩ (demoTicks.take 5) ∧
       prev_short_ma ⟨2, 4⟩ (demoTicks.take 5) ≥ prev_long_ref ⟨2, 4⟩ (demoTicks.take 5)) ∧
    (SimpleMovingAverageStrategy.analyze ⟨2, 4⟩ ⟨5, 20, none⟩ (demoTicks.take 5) = "HOLD" ↔
       ¬(short_ma ⟨2, 4⟩ (demoTicks.take 5) > long_ma ⟨2, 4⟩ (demoTicks.take 5) ∧
         prev_short_ma ⟨2, 4⟩ (demoTicks.take 5) ≤ prev_long_ref ⟨2, 4⟩ (demoTicks.take 5)) ∧
       ¬(short_ma ⟨2, 4⟩ (demoTicks.take 5) < long_ma ⟨2, 4⟩ (demoTicks.take 5) ∧
         prev_short_ma ⟨2, 4⟩ (demoTicks.take 5) ≥ prev_long_ref ⟨2, 4⟩ (demoTicks.take 5))) :=
  sma_crossover_rule.1 ⟨2, 4⟩ ⟨5, 20, none⟩ (demoTicks.take 5) (by decide)

/-- C2: with `len(history) ≥ period + 1`, `RSIStrategy.analyze` computes
the RSI from simple means of the gains and losses of the `period`
consecutive deltas (RSI = 100 when the average loss is 0) and returns BUY
when `RSI < oversold`, SELL when `RSI > overbought`, else HOLD; and for 15
strictly increasing prices with period 14, oversold 30, overbought 70 it
returns SELL. -/
theorem rsi_signal_rule :
    (∀ (s : RSIStrategy) (data : PriceData) (history : List PriceData),
      s.period + 1 ≤ history.length →
      s.analyze data history =
        if rsi_value s history < s.oversold then "BUY"
        else if rsi_value s history > s.overbought then "SELL"
        else "HOLD") ∧
    (∀ (data : PriceData) (history : List PriceData),
      history.length = 15 →
      List.Chain' (fun a b : PriceData => a.price < b.price) history →
      RSIStrategy.analyze ⟨14, 30, 70⟩ data history = "SELL") := by
  refine ⟨rsi_analyze_eq, fun data history hlen hchain => ?_⟩
  have h15 : (⟨14, 30, 70⟩ : RSIStrategy).period + 1 ≤ history.length := by
    show 14 + 1 ≤ history.length
    omega
  rw [rsi_analyze_eq _ data history h15]
  have hloss : rsi_avg_loss ⟨14, 30, 70⟩ history = 0 := by
    have hposall := zip_sub_pos (history.map (fun d => d.price))
      ((List.chain'_map _).mpr hchain)
    have hTL : takeLast ((⟨14, 30, 70⟩ : RSIStrategy).period + 1) history = history := by
      apply takeLast_all
      show history.length ≤ 14 + 1
      omega
    have hall : ∀ x ∈ (List.zipWith (· - ·)
        ((history.map (fun d => d.price)).tail)
        (history.map (fun d => d.price))).map
          (fun change => if change < 0 then -change else 0), x = 0 := by
      intro x hx
      obtain ⟨c, hc, rfl⟩ := List.mem_map.mp hx
      have hcpos := hposall c hc
      simp [not_lt.mpr (le_of_lt hcpos)]
    simp only [rsi_avg_loss, hTL]
    rw [List.sum_eq_zero hall, zero_div]
  simp only [rsi_value, hloss]
  norm_num

/-- Witness for C2: the RSI decision rule applied to 15 rising prices. -/
theorem rsi_signal_rule_witness :
    RSIStrategy.analyze ⟨14, 30, 70⟩ ⟨16, 16, none⟩ demoRising =
      (if rsi_value ⟨14, 30, 70⟩ demoRising < 30 then "BUY"
       else if rsi_value ⟨14, 30, 70⟩ demoRising > 70 then "SELL"
       else "HOLD") :=
  rsi_signal_rule.1 ⟨14, 30, 70⟩ ⟨16, 16, none⟩ demoRising (by decide)

/-- C5: starting from a fresh assistant with capacity `N`, the price
history length never exceeds `N` at any point of an append sequence, and
after `N + k` appends the buffer holds exactly the last `N` observations
in arrival order (oldest evicted first). -/
theorem history_bounded :
    ∀ (a : TradingAssistant) (N : Nat) (xs : List PriceData),
      a.price_history = ⟨N, []⟩ →
      ((∀ p : Nat,
          ((xs.take p).foldl TradingAssistant.on_data_received
              a).price_history.items.length ≤ N) ∧
       (∀ k : Nat, xs.length = N + k →
          (xs.foldl TradingAssistant.on_data_received a).price_history.items =
            xs.drop k)) := by
  intro a N xs hph
  constructor
  · intro p
    rw [foldl_on_data_received_history, hph,
        foldl_append_items N (xs.take p) [] (by simp), List.nil_append,
        takeLast_length]
    omega
  · intro k hk
    rw [foldl_on_data_received_history, hph,
        foldl_append_items N xs [] (by simp), List.nil_append]
    unfold takeLast
    congr 1
    omega

/-- Witness for C5: capacity 2, three appends, both parts at the concrete
sequence. -/
theorem history_bounded_witness :
    ((([⟨1, 1, none⟩, ⟨2, 2, none⟩, ⟨3, 3, none⟩] : List PriceData).take 3).foldl
        TradingAssistant.on_data_received
        (TradingAssistant.init 2)).price_history.items.length ≤ 2 ∧
    (([⟨1, 1, none⟩, ⟨2, 2, none⟩, ⟨3, 3, none⟩] : List PriceData).foldl
        TradingAssistant.on_data_received
        (TradingAssistant.init 2)).price_history.items =
      ([⟨1, 1, none⟩, ⟨2, 2, none⟩, ⟨3, 3, none⟩] : List PriceData).drop 1 :=
  ⟨(history_bounded (TradingAssistant.init 2) 2
      [⟨1, 1, none⟩, ⟨2, 2, none⟩, ⟨3, 3, none⟩] rfl).1 3,
   (history_bounded (TradingAssistant.init 2) 2
      [⟨1, 1, none⟩, ⟨2, 2, none⟩, ⟨3, 3, none⟩] rfl).2 1 (by decide)⟩

/-- C6: if the strategy at position `i` raises on this tick, the loop
catches the exception: the recorded outcomes still show every registered
strategy (in particular every one after `i`) invoked with the very same
`(observation, history snapshot)` pair, and the loop returns normally, so
ingestion continues. -/
theorem strategy_fault_isolated :
    ∀ (strats : List TradingStrategy) (data : PriceData)
      (hist : List PriceData) (st : Stats) (i : Nat) (f : TradingStrategy)
      (e : String),
      strats.get? i = some f → f data hist = .error e →
      (runStrategies strats data hist st).1 =
        strats.map (fun g => g data hist) :=
  fun strats data hist st _ _ _ _ _ => runStrategies_fst data hist strats st

/-- Witness for C6: a faulty first strategy does not stop the second from
being invoked on the same tick. -/
theorem strategy_fault_isolated_witness :
    (runStrategies [demoFaulty, demoConstBuy] ⟨1, 1, none⟩ []
        (TradingAssistant.init 0).stats).1 =
      [demoFaulty, demoConstBuy].map (fun g => g ⟨1, 1, none⟩ []) :=
  strategy_fault_isolated [demoFaulty, demoConstBuy] ⟨1, 1, none⟩ []
    (TradingAssistant.init 0).stats 0 demoFaulty "boom" rfl rfl

/-- C7: on a tick where every registered strategy returns HOLD, processing
the observation updates `last_price` and appends to history while
`total_signals`, `buy_signals`, `sell_signals`, `hold_signals` and
`last_signal` are all unchanged (counter and `last_signal` updates happen
only under `signal != 'HOLD'`). -/
theorem hold_tick_frame :
    ∀ (a : TradingAssistant) (data : PriceData),
      (∀ f ∈ a.strategies,
        f data (a.price_history.append data).items = .ok "HOLD") →
      ((a.on_data_received data).stats.total_signals = a.stats.total_signals ∧
       (a.on_data_received data).stats.buy_signals = a.stats.buy_signals ∧
       (a.on_data_received data).stats.sell_signals = a.stats.sell_signals ∧
       (a.on_data_received data).stats.hold_signals = a.stats.hold_signals ∧
       (a.on_data_received data).stats.last_signal = a.stats.last_signal ∧
       (a.on_data_received data).stats.last_price = some data.price ∧
       (a.on_data_received data).price_history = a.price_history.append data) := by
  intro a data h
  have hist_eq := on_data_received_price_history a data
  have hstats : (a.on_data_received data).stats =
      { a.stats with last_price := some data.price } := by
    simp only [TradingAssistant.on_data_received,
      TradingAssistant.analyze_with_strategies]
    split
    · rfl
    · exact runStrategies_stats_hold a.strategies data _ _ h
  rw [hstats, hist_eq]
  exact ⟨rfl, rfl, rfl, rfl, rfl, rfl, rfl⟩

/-- Witness for C7: one always-HOLD strategy, one observation. -/
theorem hold_tick_frame_witness :
    ((((TradingAssistant.init 5).add_strategy demoConstHold).on_data_received
        ⟨1, 7, none⟩).stats.total_signals =
      ((TradingAssistant.init 5).add_strategy demoConstHold).stats.total_signals ∧
     (((TradingAssistant.init 5).add_strategy demoConstHold).on_data_received
        ⟨1, 7, none⟩).stats.buy_signals =
      ((TradingAssistant.init 5).add_strategy demoConstHold).stats.buy_signals ∧
     (((TradingAssistant.init 5).add_strategy demoConstHold).on_data_received
        ⟨1, 7, none⟩).stats.sell_signals =
      ((TradingAssistant.init 5).add_strategy demoConstHold).stats.sell_signals ∧
     (((TradingAssistant.init 5).add_strategy demoConstHold).on_data_received
        ⟨1, 7, none⟩).stats.hold_signals =
      ((TradingAssistant.init 5).add_strategy demoConstHold).stats.hold_signals ∧
     (((TradingAssistant.init 5).add_strategy demoConstHold).on_data_received
        ⟨1, 7, none⟩).stats.last_signal =
      ((TradingAssistant.init 5).add_strategy demoConstHold).stats.last_signal ∧
     (((TradingAssistant.init 5).add_strategy demoConstHold).on_data_received
        ⟨1, 7, none⟩).stats.last_price = some (7 : ℚ) ∧
     (((TradingAssistant.init 5).add_strategy demoConstHold).on_data_received
        ⟨1, 7, none⟩).price_history =
      ((TradingAssistant.init 5).add_strategy
          demoConstHold).price_history.append ⟨1, 7, none⟩) :=
  hold_tick_frame ((TradingAssistant.init 5).add_strategy demoConstHold)
    ⟨1, 7, none⟩
    (by
      intro f hf
      simp [TradingAssistant.add_strategy, TradingAssistant.init] at hf
      subst hf
      rfl)

/-- C8: in every state reachable by registering strategies that only ever
return BUY, SELL or HOLD and then processing any observation sequence,
`hold_signals` is 0 and `total_signals = buy_signals + sell_signals`,
because all counter updates sit inside the `signal != 'HOLD'` branch. -/
theorem hold_counter_invariant :
    ∀ (N : Nat) (strats : List TradingStrategy) (xs : List PriceData),
      (∀ f ∈ strats, ∀ d h r, f d h = .ok r →
        r = "BUY" ∨ r = "SELL" ∨ r = "HOLD") →
      ((xs.foldl TradingAssistant.on_data_received
          (strats.foldl TradingAssistant.add_strategy
            (TradingAssistant.init N))).stats.hold_signals = 0 ∧
       (xs.foldl TradingAssistant.on_data_received
          (strats.foldl TradingAssistant.add_strategy
            (TradingAssistant.init N))).stats.total_signals =
         (xs.foldl TradingAssistant.on_data_received
            (strats.foldl TradingAssistant.add_strategy
              (TradingAssistant.init N))).stats.buy_signals +
           (xs.foldl TradingAssistant.on_data_received
              (strats.foldl TradingAssistant.add_strategy
                (TradingAssistant.init N))).stats.sell_signals) := by
  intro N strats xs h
  obtain ⟨hs, hst⟩ := foldl_add_strategy strats (TradingAssistant.init N)
  refine foldl_on_data_received_inv xs _ ?_ ?_ ?_
  · rw [hs, show (TradingAssistant.init N).strategies = [] from rfl,
        List.nil_append]
    exact h
  · rw [hst]; rfl
  · rw [hst]; rfl

/-- Witness for C8: one always-BUY strategy and one observation. -/
theorem hold_counter_invariant_witness :
    (([⟨1, 1, none⟩] : List PriceData).foldl TradingAssistant.on_data_received
        ([demoConstBuy].foldl TradingAssistant.add_strategy
          (TradingAssistant.init 1))).stats.hold_signals = 0 ∧
    (([⟨1, 1, none⟩] : List PriceData).foldl TradingAssistant.on_data_received
        ([demoConstBuy].foldl TradingAssistant.add_strategy
          (TradingAssistant.init 1))).stats.total_signals =
      (([⟨1, 1, none⟩] : List PriceData).foldl TradingAssistant.on_data_received
          ([demoConstBuy].foldl TradingAssistant.add_strategy
            (TradingAssistant.init 1))).stats.buy_signals +
        (([⟨1, 1, none⟩] : List PriceData).foldl TradingAssistant.on_data_received
            ([demoConstBuy].foldl TradingAssistant.add_strategy
              (TradingAssistant.init 1))).stats.sell_signals :=
  hold_counter_invariant 1 [demoConstBuy] [⟨1, 1, none⟩]
    (by
      intro f hf d h r hr
      obtain rfl := List.mem_singleton.mp hf
      simp [demoConstBuy] at hr
      subst hr
      exact Or.inl rfl)
